import Mathlib

/-!
Shallow embedding of the OAuth account-management core of gcal-readonly-mcp
(src/auth.go, src/config.go): the per-account token store, the configuration
mapping, and the interactive authorization flow `PerformOAuthFlow` together
with `AddAccount` / `RemoveAccount`.

Filesystem effects are modelled as explicit state: token files are an
association list keyed by account name (the Go code derives the path
`tokens/<name>.json` injectively from the name, so the name is the key),
and JSON file contents are modelled at the syntax-tree level, with a
separate constructor for files whose bytes are not valid JSON.
-/

namespace Gcal

/-- JSON value syntax tree, the level at which `encoding/json` marshalling
and unmarshalling of token files is modelled. -/
inductive Json where
  | null : Json
  | bool (b : Bool) : Json
  | num (n : Int) : Json
  | str (s : String) : Json
  | arr (xs : List Json) : Json
  | obj (fields : List (String × Json)) : Json

/-- Embedding of `oauth2.Token` as persisted by `SaveToken`: the JSON-tagged
fields `access_token`, `token_type,omitempty`, `refresh_token,omitempty` and
`expiry` (the timestamp is modelled as an integer). -/
structure Token where
  accessToken : String
  tokenType : String
  refreshToken : String
  expiry : Int
deriving Repr, DecidableEq

/-- Association-list lookup keyed by strings; models a Go map read. -/
def lookupA {α : Type} (l : List (String × α)) (k : String) : Option α :=
  match l with
  | [] => none
  | (k', v) :: rest => if k' = k then some v else lookupA rest k

/-- Association-list key removal; models `delete(m, k)` / `os.Remove`. -/
def eraseA {α : Type} (l : List (String × α)) (k : String) : List (String × α) :=
  match l with
  | [] => []
  | (k', v) :: rest => if k' = k then eraseA rest k else (k', v) :: eraseA rest k

/-- Association-list insert-or-overwrite; models a Go map write or an
overwriting file write. -/
def insertA {α : Type} (l : List (String × α)) (k : String) (v : α) :
    List (String × α) :=
  (k, v) :: eraseA l k

theorem lookupA_eraseA {α : Type} (l : List (String × α)) (k k' : String) :
    lookupA (eraseA l k) k' = if k = k' then none else lookupA l k' := by
  induction l with
  | nil => simp [eraseA, lookupA]
  | cons hd tl ih =>
    obtain ⟨k₀, v₀⟩ := hd
    by_cases h₀ : k₀ = k
    · rw [show eraseA ((k₀, v₀) :: tl) k = eraseA tl k from by simp [eraseA, h₀]]
      rw [ih]
      by_cases hkk : k = k'
      · simp [hkk]
      · have hne : ¬ k₀ = k' := by rw [h₀]; exact hkk
        simp [hkk, lookupA, hne]
    · rw [show eraseA ((k₀, v₀) :: tl) k = (k₀, v₀) :: eraseA tl k from by
        simp [eraseA, h₀]]
      by_cases hk' : k₀ = k'
      · have hne : ¬ k = k' := fun h => h₀ (by rw [hk', h])
        simp [lookupA, hk', hne]
      · simp [lookupA, hk', ih]

theorem lookupA_insertA {α : Type} (l : List (String × α)) (k k' : String)
    (v : α) :
    lookupA (insertA l k v) k' = if k = k' then some v else lookupA l k' := by
  simp only [insertA, lookupA]
  by_cases h : k = k'
  · simp [h]
  · simp [h, lookupA_eraseA]

/-- Bytes of a token file: either well-formed JSON (given as its syntax
tree) or a byte string that is not valid JSON. -/
inductive FileContent where
  | wellFormed (j : Json) : FileContent
  | malformed (s : String) : FileContent

/-- The `tokens/` directory: one file per account, keyed by account name
(`GetTokenPath` maps distinct names to distinct paths). -/
def TokenFiles : Type := List (String × FileContent)

/-- Lookup of a JSON object field; the encoder below never emits duplicate
keys, so first match suffices. -/
def jField (fields : List (String × Json)) (k : String) : Option Json :=
  lookupA fields k

/-- Unmarshalling of a string-typed struct field: an absent field or JSON
null leaves the zero value `""`; a value of the wrong JSON type is an
unmarshalling error. -/
def jGetStr (fields : List (String × Json)) (k : String) : Option String :=
  match jField fields k with
  | none => some ""
  | some (Json.str s) => some s
  | some Json.null => some ""
  | some _ => none

/-- Unmarshalling of the integer-modelled `expiry` field, with the same
zero-value and type-error behaviour as `jGetStr`. -/
def jGetNum (fields : List (String × Json)) (k : String) : Option Int :=
  match jField fields k with
  | none => some 0
  | some (Json.num n) => some n
  | some Json.null => some 0
  | some _ => none

/-- Marshalling of `oauth2.Token` by `json.MarshalIndent` in `SaveToken`:
`access_token` and `expiry` are always emitted, `token_type` and
`refresh_token` carry `omitempty` and are dropped when empty. -/
def tokenToJson (t : Token) : Json :=
  Json.obj
    ([("access_token", Json.str t.accessToken)]
      ++ (if t.tokenType = "" then [] else [("token_type", Json.str t.tokenType)])
      ++ (if t.refreshToken = "" then [] else
            [("refresh_token", Json.str t.refreshToken)])
      ++ [("expiry", Json.num t.expiry)])

/-- Unmarshalling of a JSON value into `oauth2.Token` by `json.Unmarshal`
in `LoadToken`: a JSON object binds the tagged fields, JSON null is a
no-op yielding the zero token, anything else is an error. -/
def jsonToToken : Json → Option Token
  | Json.obj fields => do
      let a ← jGetStr fields "access_token"
      let ty ← jGetStr fields "token_type"
      let r ← jGetStr fields "refresh_token"
      let e ← jGetNum fields "expiry"
      some ⟨a, ty, r, e⟩
  | Json.null => some ⟨"", "", "", 0⟩
  | _ => none

/-- Error outcomes of `LoadToken`: the raw read error on a missing file
(the NotFoundError of the spec) versus the wrapped `failed to parse token`
error (ParseError). -/
inductive LoadError where
  | notFound : LoadError
  | parseError : LoadError
deriving Repr, DecidableEq

/-- Embedding of `LoadToken` (src/auth.go): read the per-account token
file, then `json.Unmarshal` it; a missing file and a malformed file are
distinct errors. -/
def LoadToken (files : TokenFiles) (accountName : String) :
    Except LoadError Token :=
  match lookupA files accountName with
  | none => Except.error LoadError.notFound
  | some (FileContent.malformed _) => Except.error LoadError.parseError
  | some (FileContent.wellFormed j) =>
      match jsonToToken j with
      | none => Except.error LoadError.parseError
      | some t => Except.ok t

/-- Embedding of `SaveToken` (src/auth.go): marshal the token and write it
to the per-account file, overwriting any previous content. -/
def SaveToken (files : TokenFiles) (accountName : String) (t : Token) :
    TokenFiles :=
  insertA files accountName (FileContent.wellFormed (tokenToJson t))

/-- Embedding of `AccountConfig` (src/config.go): per-account entry in the
`accounts` mapping of config.json. -/
structure AccountConfig where
  name : String
  email : String
deriving Repr, DecidableEq

/-- Combined persistent state the account-management operations act on: the
loaded `Config.Accounts` mapping and the `tokens/` directory. -/
structure SysState where
  accounts : List (String × AccountConfig)
  tokenFiles : TokenFiles

/-- Error outcome of `RemoveAccount`: the `account not found` error. -/
inductive RemoveError where
  | notFound : RemoveError
deriving Repr, DecidableEq

/-- Embedding of `RemoveAccount` (src/config.go): error if the account is
not in the config; otherwise best-effort delete of the token file (its
absence is ignored), removal from the config mapping, and save. -/
def RemoveAccount (st : SysState) (name : String) :
    Except RemoveError SysState :=
  if (lookupA st.accounts name).isSome then
    Except.ok
      { accounts := eraseA st.accounts name
        tokenFiles := eraseA st.tokenFiles name }
  else
    Except.error RemoveError.notFound

/-- The channels created by `PerformOAuthFlow` (src/auth.go lines 101-103):
`codeChan`, `errChan` and `serverReady`. -/
inductive ChanId where
  | codeChan : ChanId
  | errChan : ChanId
  | serverReady : ChanId
deriving Repr, DecidableEq

/-- The three outcome types a producer can deliver during one
authorization session. -/
inductive OutcomeType where
  | callbackCode : OutcomeType
  | callbackError : OutcomeType
  | manualCode : OutcomeType
deriving Repr, DecidableEq

/-- Which channel each producer sends its outcome on, read off the source:
the callback handler sends a code on `codeChan` and an error on `errChan`;
the manual reader sends its code on the same `codeChan`. -/
def outcomeChannel : OutcomeType → ChanId
  | OutcomeType.callbackCode => ChanId.codeChan
  | OutcomeType.callbackError => ChanId.errChan
  | OutcomeType.manualCode => ChanId.codeChan

/-- Buffer capacity of each channel, as created by `make(chan _, 1)`. -/
def chanCapacity : ChanId → Nat := fun _ => 1

/-- Whether a new send on a buffered channel blocks: it does exactly when
the sends already pending exceed the buffer capacity plus the values the
receiver has consumed (and the receiver is no longer receiving). -/
def sendBlocks (cap : Nat) (priorSends : Nat) (receives : Nat) : Bool :=
  cap + receives ≤ priorSends

/-- Number of sends a list of delivered outcomes directs at one channel. -/
def sendsTo (c : ChanId) (outs : List OutcomeType) : Nat :=
  (outs.filter (fun o => outcomeChannel o = c)).length

/-- Result of the single `ReadString` call the manual reader makes on stdin. -/
inductive ReadResult where
  | readFailure : ReadResult
  | line (s : String) : ReadResult
deriving Repr, DecidableEq

/-- ASCII whitespace recognised by `strings.TrimSpace` (the Unicode cases
beyond ASCII are not exercised by authorization codes). -/
def isSpaceChar (c : Char) : Bool :=
  c = ' ' || c = '\t' || c = '\n' || c = '\x0b' || c = '\x0c' || c = '\r'

/-- Embedding of `strings.TrimSpace`: drop leading and trailing whitespace
characters. -/
def trimSpace (s : String) : String :=
  String.mk (((s.data.dropWhile isSpaceChar).reverse.dropWhile
    isSpaceChar).reverse)

/-- Embedding of the manual-input goroutine (src/auth.go lines 160-171):
one read; on success the line is whitespace-trimmed and sent only if
non-empty; a read error or an empty trimmed line produces no signal. -/
def manualSignal : ReadResult → Option String
  | ReadResult.readFailure => none
  | ReadResult.line s =>
      if trimSpace s = "" then none else some (trimSpace s)

/-- External happenings during one authorization session, in order of
arrival: a callback request carrying the value of its `code` query
parameter (`""` when absent), completion of the manual read, and
expiry of the 5-minute deadline. -/
inductive Event where
  | callbackArrives (codeParam : String) : Event
  | manualCompletes (r : ReadResult) : Event
  | deadline : Event
deriving Repr, DecidableEq

/-- Signal the select statement of the coordinator resolves on. -/
inductive SelectOutcome where
  | fromCallback (code : String) : SelectOutcome
  | fromManual (code : String) : SelectOutcome
  | callbackFailed : SelectOutcome
  | timedOut : SelectOutcome
deriving Repr, DecidableEq

/-- The select statement of `PerformOAuthFlow`: the first effective signal
wins. A callback with an empty `code` parameter signals the error channel;
a manual read that produces no signal contributes nothing, leaving
resolution to later events; if no signal ever arrives the deadline fires. -/
def resolve : List Event → SelectOutcome
  | [] => SelectOutcome.timedOut
  | Event.callbackArrives q :: _ =>
      if q = "" then SelectOutcome.callbackFailed else SelectOutcome.fromCallback q
  | Event.manualCompletes r :: rest =>
      match manualSignal r with
      | some c => SelectOutcome.fromManual c
      | none => resolve rest
  | Event.deadline :: _ => SelectOutcome.timedOut

/-- The authorization code carried by the winning signal of the session, if any. -/
def winningCode (events : List Event) : Option String :=
  match resolve events with
  | SelectOutcome.fromCallback c => some c
  | SelectOutcome.fromManual c => some c
  | SelectOutcome.callbackFailed => none
  | SelectOutcome.timedOut => none

/-- Observable actions of `PerformOAuthFlow`, recorded in program order:
binding and releasing the listener port, the code-for-token exchange,
the token-file write, and the identity (primary calendar) lookup. -/
inductive Action where
  | startListener : Action
  | stopListener : Action
  | exchangeCall (code : String) (ok : Bool) : Action
  | writeToken (accountName : String) (t : Token) : Action
  | identityCall (ok : Bool) : Action
deriving Repr, DecidableEq

/-- External collaborators of the flow: whether the operator-supplied
credentials file is present and parses, the provider endpoint for code-for-token
exchange endpoint (`none` models a rejected exchange), and the identity
lookup resolving a token to the account email (`none` models a failed
primary-calendar query). -/
structure Provider where
  hasCredentials : Bool
  exchange : String → Option Token
  identity : Token → Option String

/-- Error taxonomy of the flow, per exit path of `PerformOAuthFlow`. -/
inductive AuthError where
  | configFailure : AuthError
  | listenerFailure : AuthError
  | exchangeFailure : AuthError
  | timeoutFailure : AuthError
  | identityFailure : AuthError
deriving Repr, DecidableEq

/-- Outcome of one `PerformOAuthFlow` call: the returned email or error,
the token directory after the call, and the recorded action trace. -/
structure FlowResult where
  result : Except AuthError String
  tokenFiles : TokenFiles
  trace : List Action

/-- The timeout of the select in the coordinator, `5 * time.Minute`. -/
def authTimeoutMinutes : Nat := 5

/-- Tail of `PerformOAuthFlow` once a code has won the race (src/auth.go
lines 190-219): `Shutdown` of the server, the code-for-token exchange
(failure aborts with nothing persisted), the token save, and the identity
lookup last (its failure is returned but the saved token stays). -/
def exchangePhase (p : Provider) (accountName : String) (files : TokenFiles)
    (code : String) : FlowResult :=
  match p.exchange code with
  | none =>
      ⟨Except.error AuthError.exchangeFailure, files,
        [Action.startListener, Action.stopListener,
          Action.exchangeCall code false]⟩
  | some t =>
      match p.identity t with
      | none =>
          ⟨Except.error AuthError.identityFailure,
            SaveToken files accountName t,
            [Action.startListener, Action.stopListener,
              Action.exchangeCall code true, Action.writeToken accountName t,
              Action.identityCall false]⟩
      | some email =>
          ⟨Except.ok email, SaveToken files accountName t,
            [Action.startListener, Action.stopListener,
              Action.exchangeCall code true, Action.writeToken accountName t,
              Action.identityCall true]⟩

/-- Continuation of `PerformOAuthFlow` after its select statement resolves
(src/auth.go lines 173-189): the error and timeout arms `Close` the server
and return; a winning code continues into `exchangePhase`. -/
def afterSelect (p : Provider) (accountName : String) (files : TokenFiles) :
    SelectOutcome → FlowResult
  | SelectOutcome.callbackFailed =>
      ⟨Except.error AuthError.listenerFailure, files,
        [Action.startListener, Action.stopListener]⟩
  | SelectOutcome.timedOut =>
      ⟨Except.error AuthError.timeoutFailure, files,
        [Action.startListener, Action.stopListener]⟩
  | SelectOutcome.fromCallback code => exchangePhase p accountName files code
  | SelectOutcome.fromManual code => exchangePhase p accountName files code

/-- Embedding of `PerformOAuthFlow` (src/auth.go): load the OAuth config
(failure returns before the listener is started), start the listener, race
callback, manual input and deadline, then run the exchange phase. -/
def PerformOAuthFlow (p : Provider) (accountName : String)
    (files : TokenFiles) (events : List Event) : FlowResult :=
  if p.hasCredentials then
    afterSelect p accountName files (resolve events)
  else
    ⟨Except.error AuthError.configFailure, files, []⟩

/-- Whether the listener port is still bound after a trace is executed. -/
def listenerOpenAfter (tr : List Action) : Bool :=
  tr.foldl
    (fun st a =>
      match a with
      | Action.startListener => true
      | Action.stopListener => false
      | _ => st)
    false

/-- Error outcome of `AddAccount` (src/config.go). -/
inductive AddError where
  | alreadyExists : AddError
  | credentialsMissing : AddError
  | oauthFailed (e : AuthError) : AddError
deriving Repr, DecidableEq

/-- Outcome of one `AddAccount` call: the returned email or error, the
resulting state, and the actions of the embedded OAuth flow. -/
structure AddOutcome where
  result : Except AddError String
  state : SysState
  trace : List Action

/-- Embedding of `AddAccount` (src/config.go): error if the account already
exists, then error if the credentials file is absent (both before any OAuth
work); otherwise run `PerformOAuthFlow` and, only on its success, add the
account to the config mapping and save. -/
def AddAccount (p : Provider) (st : SysState) (name : String)
    (events : List Event) : AddOutcome :=
  if (lookupA st.accounts name).isSome then
    ⟨Except.error AddError.alreadyExists, st, []⟩
  else if p.hasCredentials = false then
    ⟨Except.error AddError.credentialsMissing, st, []⟩
  else
    let fr := PerformOAuthFlow p name st.tokenFiles events
    match fr.result with
    | Except.error e =>
        ⟨Except.error (AddError.oauthFailed e),
          { accounts := st.accounts, tokenFiles := fr.tokenFiles }, fr.trace⟩
    | Except.ok email =>
        ⟨Except.ok email,
          { accounts := insertA st.accounts name ⟨name, email⟩
            tokenFiles := fr.tokenFiles }, fr.trace⟩

/-- An account-management operation, for stating invariants uniformly. -/
inductive Op where
  | add (name : String) (events : List Event) : Op
  | remove (name : String) : Op

/-- Runs one account-management operation, yielding the new state when the
operation completes successfully. -/
def runOp (p : Provider) (st : SysState) : Op → Except Unit SysState
  | Op.add name events =>
      match (AddAccount p st name events).result with
      | Except.ok _ => Except.ok (AddAccount p st name events).state
      | Except.error _ => Except.error ()
  | Op.remove name =>
      match RemoveAccount st name with
      | Except.ok st' => Except.ok st'
      | Except.error _ => Except.error ()

/-- Token-store invariant of the spec: a token file exists iff the account
is listed in the config mapping. -/
def StoreInv (st : SysState) : Prop :=
  ∀ n : String,
    (lookupA st.tokenFiles n).isSome ↔ (lookupA st.accounts n).isSome

/-- Concrete token used to instantiate provider oracles. -/
def sampleToken : Token := ⟨"ya29.sample", "Bearer", "1//refresh", 100⟩

/-- Provider oracle whose exchange succeeds but whose identity (primary
calendar) lookup fails. -/
def identityFailProvider : Provider :=
  ⟨true, fun _ => some sampleToken, fun _ => none⟩

/-- Provider oracle whose code-for-token exchange always fails. -/
def exchangeFailProvider : Provider :=
  ⟨true, fun _ => none, fun _ => none⟩

/-- Provider oracle for which the whole flow succeeds. -/
def okProvider : Provider :=
  ⟨true, fun _ => some sampleToken, fun _ => some "work@example.com"⟩

theorem jsonToToken_tokenToJson (t : Token) :
    jsonToToken (tokenToJson t) = some t := by
  obtain ⟨a, ty, r, e⟩ := t
  by_cases hty : ty = "" <;> by_cases hr : r = "" <;>
    simp [tokenToJson, jsonToToken, jGetStr, jGetNum, jField, lookupA,
      hty, hr, Bind.bind, Option.bind]

theorem exchangePhase_ok_shape (p : Provider) (a : String)
    (files : TokenFiles) (code email : String)
    (h : (exchangePhase p a files code).result = Except.ok email) :
    ∃ t : Token, p.exchange code = some t ∧
      (exchangePhase p a files code).tokenFiles = SaveToken files a t := by
  cases hx : p.exchange code with
  | none => simp [exchangePhase, hx] at h
  | some t =>
    cases hi : p.identity t with
    | none => simp [exchangePhase, hx, hi] at h
    | some e => exact ⟨t, rfl, by simp [exchangePhase, hx, hi]⟩

theorem flow_ok_shape (p : Provider) (a : String) (files : TokenFiles)
    (events : List Event) (email : String)
    (h : (PerformOAuthFlow p a files events).result = Except.ok email) :
    ∃ t : Token, (PerformOAuthFlow p a files events).tokenFiles =
      SaveToken files a t := by
  cases hc : p.hasCredentials with
  | false => simp [PerformOAuthFlow, hc] at h
  | true =>
    cases ho : resolve events with
    | callbackFailed => simp [PerformOAuthFlow, hc, afterSelect, ho] at h
    | timedOut => simp [PerformOAuthFlow, hc, afterSelect, ho] at h
    | fromCallback c =>
      simp only [PerformOAuthFlow, hc, if_true, afterSelect, ho] at h ⊢
      obtain ⟨t, _, ht⟩ := exchangePhase_ok_shape p a files c email h
      exact ⟨t, ht⟩
    | fromManual c =>
      simp only [PerformOAuthFlow, hc, if_true, afterSelect, ho] at h ⊢
      obtain ⟨t, _, ht⟩ := exchangePhase_ok_shape p a files c email h
      exact ⟨t, ht⟩

theorem addAccount_ok_shape (p : Provider) (st : SysState)
    (name email : String) (events : List Event)
    (h : (AddAccount p st name events).result = Except.ok email) :
    ∃ t : Token,
      (AddAccount p st name events).state =
        ⟨insertA st.accounts name ⟨name, email⟩,
          SaveToken st.tokenFiles name t⟩ := by
  cases hl : (lookupA st.accounts name).isSome with
  | true => simp [AddAccount, hl] at h
  | false =>
    cases hc : p.hasCredentials with
    | false => simp [AddAccount, hl, hc] at h
    | true =>
      cases hfr : (PerformOAuthFlow p name st.tokenFiles events).result with
      | error e => simp [AddAccount, hl, hc, hfr] at h
      | ok e =>
        have he : e = email := by
          simpa [AddAccount, hl, hc, hfr] using h
        obtain ⟨t, ht⟩ := flow_ok_shape p name st.tokenFiles events e hfr
        exact ⟨t, by simp [AddAccount, hl, hc, hfr, ht, he]⟩

/-- C6: for every account name and credential, `SaveToken` followed by
`LoadToken` on the same account yields the credential back — token
serialization round-trips through the per-account token file. -/
theorem save_load_roundtrip (files : TokenFiles) (a : String) (c : Token) :
    LoadToken (SaveToken files a c) a = Except.ok c := by
  simp [LoadToken, SaveToken, lookupA_insertA, jsonToToken_tokenToJson]

/-- C7: `LoadToken` on an account with no token file returns the not-found
error and never the parse error; on a file containing invalid JSON it
returns the parse error and never the not-found error; the two outcomes
are distinct. -/
theorem load_error_separation (files : TokenFiles) (a : String) :
    (lookupA files a = none →
      LoadToken files a = Except.error LoadError.notFound) ∧
    (∀ s, lookupA files a = some (FileContent.malformed s) →
      LoadToken files a = Except.error LoadError.parseError) ∧
    LoadError.notFound ≠ LoadError.parseError := by
  refine ⟨fun h => ?_, fun s h => ?_, by decide⟩
  · simp [LoadToken, h]
  · simp [LoadToken, h]

/-- Witness for C7 at a concrete store: a missing file and a malformed
file produce the two distinct errors. -/
theorem load_error_separation_witness :
    LoadToken [("bad", FileContent.malformed "not json")] "ghost" =
      Except.error LoadError.notFound ∧
    LoadToken [("bad", FileContent.malformed "not json")] "bad" =
      Except.error LoadError.parseError :=
  ⟨(load_error_separation [("bad", FileContent.malformed "not json")]
      "ghost").1 rfl,
    (load_error_separation [("bad", FileContent.malformed "not json")]
      "bad").2.1 "not json" rfl⟩

/-- C1 counterexample: on a never-configured account name, `RemoveAccount`
does not succeed — it returns the account-not-found error. -/
theorem remove_unlisted_fails_cex :
    RemoveAccount ⟨[], []⟩ "ghost" = Except.error RemoveError.notFound := rfl

/-- C1 (amended): `RemoveAccount` on an account name listed in the
configuration succeeds even when no token file exists for it (the token
delete is best-effort, so absence of the file is not an error), while on
an account name not listed in the configuration it returns an
account-not-found error. -/
theorem remove_account_behavior (st : SysState) (name : String) :
    ((lookupA st.accounts name).isSome = true →
      RemoveAccount st name =
        Except.ok ⟨eraseA st.accounts name, eraseA st.tokenFiles name⟩) ∧
    (lookupA st.accounts name = none →
      RemoveAccount st name = Except.error RemoveError.notFound) := by
  constructor
  · intro h; simp [RemoveAccount, h]
  · intro h; simp [RemoveAccount, h]

/-- Witness for C1 (amended): removing a configured account that has no
token file succeeds; removing a never-configured name errors. -/
theorem remove_account_behavior_witness :
    RemoveAccount ⟨[("work", ⟨"work", "w@example.com"⟩)], []⟩ "work" =
      Except.ok ⟨[], []⟩ ∧
    RemoveAccount ⟨[("work", ⟨"work", "w@example.com"⟩)], []⟩ "ghost" =
      Except.error RemoveError.notFound :=
  ⟨(remove_account_behavior ⟨[("work", ⟨"work", "w@example.com"⟩)], []⟩
      "work").1 rfl,
    (remove_account_behavior ⟨[("work", ⟨"work", "w@example.com"⟩)], []⟩
      "ghost").2 rfl⟩

/-- C9: `AddAccount` on an account name already present in the
configuration returns an already-exists error, leaves the configuration
and every token file unchanged, and performs no action of the OAuth flow
(in particular it never binds the local port). -/
theorem add_existing_rejected (p : Provider) (st : SysState) (name : String)
    (events : List Event) (h : (lookupA st.accounts name).isSome = true) :
    (AddAccount p st name events).result =
      Except.error AddError.alreadyExists ∧
    (AddAccount p st name events).state = st ∧
    (AddAccount p st name events).trace = [] := by
  refine ⟨?_, ?_, ?_⟩ <;> simp [AddAccount, h]

/-- Witness for C9: adding `work` when `work` is already configured is
rejected without any effect. -/
theorem add_existing_rejected_witness :
    (AddAccount okProvider ⟨[("work", ⟨"work", "w@example.com"⟩)], []⟩
        "work" []).result = Except.error AddError.alreadyExists ∧
    (AddAccount okProvider ⟨[("work", ⟨"work", "w@example.com"⟩)], []⟩
        "work" []).state = ⟨[("work", ⟨"work", "w@example.com"⟩)], []⟩ ∧
    (AddAccount okProvider ⟨[("work", ⟨"work", "w@example.com"⟩)], []⟩
        "work" []).trace = [] :=
  add_existing_rejected okProvider
    ⟨[("work", ⟨"work", "w@example.com"⟩)], []⟩ "work" [] rfl

/-- C2 counterexample: an `AddAccount` call that completes with an
identity-lookup failure leaves a token file for an account that is not
listed in the configuration, so the file-iff-listed invariant does not
hold after every completed account-management operation. -/
theorem invariant_broken_by_failed_add_cex :
    (AddAccount identityFailProvider ⟨[], []⟩ "work"
        [Event.callbackArrives "abc"]).result =
      Except.error (AddError.oauthFailed AuthError.identityFailure) ∧
    (lookupA (AddAccount identityFailProvider ⟨[], []⟩ "work"
        [Event.callbackArrives "abc"]).state.tokenFiles "work").isSome =
      true ∧
    (lookupA (AddAccount identityFailProvider ⟨[], []⟩ "work"
        [Event.callbackArrives "abc"]).state.accounts "work").isSome =
      false :=
  ⟨rfl, rfl, rfl⟩

/-- C2 (amended): after every account-management operation that completes
successfully, a token file exists for an account name iff that name is
listed in the configuration (the invariant is preserved); an add that
fails after token persistence — an identity-lookup failure — can instead
leave a token file for an unlisted account. -/
theorem store_invariant_preserved (p : Provider) (st st' : SysState)
    (op : Op) (hinv : StoreInv st) (hrun : runOp p st op = Except.ok st') :
    StoreInv st' := by
  cases op with
  | remove name =>
    cases hl : (lookupA st.accounts name).isSome with
    | false => simp [runOp, RemoveAccount, hl] at hrun
    | true =>
      have hst : st' =
          ⟨eraseA st.accounts name, eraseA st.tokenFiles name⟩ := by
        have := hrun
        simp [runOp, RemoveAccount, hl] at this
        exact this.symm
      subst hst
      intro n
      by_cases hn : name = n
      · simp [lookupA_eraseA, hn]
      · simp [lookupA_eraseA, hn, hinv n]
  | add name events =>
    cases hres : (AddAccount p st name events).result with
    | error e => simp [runOp, hres] at hrun
    | ok email =>
      have hst : st' = (AddAccount p st name events).state := by
        have := hrun
        simp [runOp, hres] at this
        exact this.symm
      obtain ⟨t, ht⟩ := addAccount_ok_shape p st name email events hres
      subst hst
      rw [ht]
      intro n
      by_cases hn : name = n
      · simp [SaveToken, lookupA_insertA, hn]
      · simp [SaveToken, lookupA_insertA, hn, hinv n]

/-- Witness for C2 (amended): a successful add of `work` from the empty
state preserves the invariant. -/
theorem store_invariant_preserved_witness :
    StoreInv (AddAccount okProvider ⟨[], []⟩ "work"
      [Event.callbackArrives "abc"]).state :=
  store_invariant_preserved okProvider ⟨[], []⟩
    (AddAccount okProvider ⟨[], []⟩ "work"
      [Event.callbackArrives "abc"]).state
    (Op.add "work" [Event.callbackArrives "abc"]) (fun _ => Iff.rfl) rfl

/-- C4: if the code-for-token exchange of the winning code fails, the flow
returns the exchange error and the token directory is unchanged; moreover
any token write recorded by the flow is of a token obtained from a
successful exchange of the winning code, so no token is ever written
before a successful exchange. -/
theorem exchange_failure_persists_nothing (p : Provider) (a : String)
    (files : TokenFiles) (events : List Event) :
    (∀ code, p.hasCredentials = true → winningCode events = some code →
      p.exchange code = none →
      (PerformOAuthFlow p a files events).result =
        Except.error AuthError.exchangeFailure ∧
      (PerformOAuthFlow p a files events).tokenFiles = files) ∧
    (∀ a' t,
      Action.writeToken a' t ∈ (PerformOAuthFlow p a files events).trace →
      ∃ code, winningCode events = some code ∧ p.exchange code = some t) := by
  constructor
  · intro code hc hw hx
    cases ho : resolve events with
    | callbackFailed => simp [winningCode, ho] at hw
    | timedOut => simp [winningCode, ho] at hw
    | fromCallback c =>
      have hcode : c = code := by simpa [winningCode, ho] using hw
      subst hcode
      constructor <;> simp [PerformOAuthFlow, hc, afterSelect, ho,
        exchangePhase, hx]
    | fromManual c =>
      have hcode : c = code := by simpa [winningCode, ho] using hw
      subst hcode
      constructor <;> simp [PerformOAuthFlow, hc, afterSelect, ho,
        exchangePhase, hx]
  · intro a' t hmem
    cases hc : p.hasCredentials with
    | false => simp [PerformOAuthFlow, hc] at hmem
    | true =>
      cases ho : resolve events with
      | callbackFailed =>
        simp [PerformOAuthFlow, hc, afterSelect, ho] at hmem
      | timedOut =>
        simp [PerformOAuthFlow, hc, afterSelect, ho] at hmem
      | fromCallback c =>
        refine ⟨c, by simp [winningCode, ho], ?_⟩
        cases hx : p.exchange c with
        | none =>
          simp [PerformOAuthFlow, hc, afterSelect, ho, exchangePhase,
            hx] at hmem
        | some t₀ =>
          cases hi : p.identity t₀ with
          | none =>
            have h2 : a' = a ∧ t = t₀ := by
              simpa [PerformOAuthFlow, hc, afterSelect, ho, exchangePhase,
                hx, hi] using hmem
            rw [h2.2]
          | some e =>
            have h2 : a' = a ∧ t = t₀ := by
              simpa [PerformOAuthFlow, hc, afterSelect, ho, exchangePhase,
                hx, hi] using hmem
            rw [h2.2]
      | fromManual c =>
        refine ⟨c, by simp [winningCode, ho], ?_⟩
        cases hx : p.exchange c with
        | none =>
          simp [PerformOAuthFlow, hc, afterSelect, ho, exchangePhase,
            hx] at hmem
        | some t₀ =>
          cases hi : p.identity t₀ with
          | none =>
            have h2 : a' = a ∧ t = t₀ := by
              simpa [PerformOAuthFlow, hc, afterSelect, ho, exchangePhase,
                hx, hi] using hmem
            rw [h2.2]
          | some e =>
            have h2 : a' = a ∧ t = t₀ := by
              simpa [PerformOAuthFlow, hc, afterSelect, ho, exchangePhase,
                hx, hi] using hmem
            rw [h2.2]

/-- Witness for C4: a failing exchange on a concrete session returns the
exchange error and writes nothing. -/
theorem exchange_failure_persists_nothing_witness :
    (PerformOAuthFlow exchangeFailProvider "work" []
        [Event.callbackArrives "abc"]).result =
      Except.error AuthError.exchangeFailure ∧
    (PerformOAuthFlow exchangeFailProvider "work" []
        [Event.callbackArrives "abc"]).tokenFiles = [] :=
  (exchange_failure_persists_nothing exchangeFailProvider "work" []
    [Event.callbackArrives "abc"]).1 "abc" rfl rfl rfl

/-- C5: if the deadline fires with no code delivered the flow returns the
timeout error; and on every exit path the listener port is no longer
bound when the flow returns, with every started listener stopped. -/
theorem timeout_and_listener_release (p : Provider) (a : String)
    (files : TokenFiles) (events : List Event) :
    (p.hasCredentials = true → resolve events = SelectOutcome.timedOut →
      (PerformOAuthFlow p a files events).result =
        Except.error AuthError.timeoutFailure) ∧
    listenerOpenAfter (PerformOAuthFlow p a files events).trace = false ∧
    (Action.startListener ∈ (PerformOAuthFlow p a files events).trace →
      Action.stopListener ∈ (PerformOAuthFlow p a files events).trace) := by
  have hsplit : ∀ out : SelectOutcome,
      listenerOpenAfter (afterSelect p a files out).trace = false ∧
      (Action.startListener ∈ (afterSelect p a files out).trace →
        Action.stopListener ∈ (afterSelect p a files out).trace) := by
    intro out
    cases out with
    | callbackFailed => simp [afterSelect, listenerOpenAfter]
    | timedOut => simp [afterSelect, listenerOpenAfter]
    | fromCallback c =>
      cases hx : p.exchange c with
      | none => simp [afterSelect, exchangePhase, hx, listenerOpenAfter]
      | some t =>
        cases hi : p.identity t with
        | none =>
          simp [afterSelect, exchangePhase, hx, hi, listenerOpenAfter]
        | some e =>
          simp [afterSelect, exchangePhase, hx, hi, listenerOpenAfter]
    | fromManual c =>
      cases hx : p.exchange c with
      | none => simp [afterSelect, exchangePhase, hx, listenerOpenAfter]
      | some t =>
        cases hi : p.identity t with
        | none =>
          simp [afterSelect, exchangePhase, hx, hi, listenerOpenAfter]
        | some e =>
          simp [afterSelect, exchangePhase, hx, hi, listenerOpenAfter]
  cases hc : p.hasCredentials with
  | true =>
    refine ⟨fun _ ht => ?_, ?_, ?_⟩
    · simp [PerformOAuthFlow, hc, ht, afterSelect]
    · simpa [PerformOAuthFlow, hc] using (hsplit (resolve events)).1
    · simpa [PerformOAuthFlow, hc] using (hsplit (resolve events)).2
  | false =>
    refine ⟨fun hcc _ => ?_, ?_, ?_⟩
    · exact absurd hcc (by decide)
    · simp [PerformOAuthFlow, hc, listenerOpenAfter]
    · simp [PerformOAuthFlow, hc]

/-- Witness for C5: a concrete session in which only the deadline fires
returns the timeout error, with the port released. -/
theorem timeout_and_listener_release_witness :
    (PerformOAuthFlow okProvider "work" [] [Event.deadline]).result =
      Except.error AuthError.timeoutFailure ∧
    listenerOpenAfter
      (PerformOAuthFlow okProvider "work" [] [Event.deadline]).trace =
      false :=
  ⟨(timeout_and_listener_release okProvider "work" [] [Event.deadline]).1
      rfl rfl,
    (timeout_and_listener_release okProvider "work" []
      [Event.deadline]).2.1⟩

/-- C8: when the exchange succeeds and the token is persisted but the
subsequent identity lookup fails, the flow reports the identity failure
and the persisted token file for the account is still present and
unchanged. -/
theorem identity_failure_keeps_token (p : Provider) (a : String)
    (files : TokenFiles) (events : List Event) (code : String) (t : Token)
    (hc : p.hasCredentials = true) (hw : winningCode events = some code)
    (hx : p.exchange code = some t) (hi : p.identity t = none) :
    (PerformOAuthFlow p a files events).result =
      Except.error AuthError.identityFailure ∧
    (PerformOAuthFlow p a files events).tokenFiles = SaveToken files a t ∧
    lookupA (PerformOAuthFlow p a files events).tokenFiles a =
      some (FileContent.wellFormed (tokenToJson t)) := by
  cases ho : resolve events with
  | callbackFailed => simp [winningCode, ho] at hw
  | timedOut => simp [winningCode, ho] at hw
  | fromCallback c =>
    have hcode : c = code := by simpa [winningCode, ho] using hw
    subst hcode
    refine ⟨?_, ?_, ?_⟩ <;>
      simp [PerformOAuthFlow, hc, afterSelect, ho, exchangePhase, hx, hi,
        SaveToken, lookupA_insertA]
  | fromManual c =>
    have hcode : c = code := by simpa [winningCode, ho] using hw
    subst hcode
    refine ⟨?_, ?_, ?_⟩ <;>
      simp [PerformOAuthFlow, hc, afterSelect, ho, exchangePhase, hx, hi,
        SaveToken, lookupA_insertA]

/-- Witness for C8: a concrete session whose identity lookup fails still
has the token file it saved. -/
theorem identity_failure_keeps_token_witness :
    (PerformOAuthFlow identityFailProvider "work" []
        [Event.callbackArrives "abc"]).result =
      Except.error AuthError.identityFailure ∧
    (PerformOAuthFlow identityFailProvider "work" []
        [Event.callbackArrives "abc"]).tokenFiles =
      SaveToken [] "work" sampleToken ∧
    lookupA (PerformOAuthFlow identityFailProvider "work" []
        [Event.callbackArrives "abc"]).tokenFiles "work" =
      some (FileContent.wellFormed (tokenToJson sampleToken)) :=
  identity_failure_keeps_token identityFailProvider "work" []
    [Event.callbackArrives "abc"] "abc" sampleToken rfl rfl rfl rfl

/-- C10: the manual reader signals only the trimmed line and only when it
is non-empty; a read error or a line that trims to empty yields no signal
at all, in which case the reader contributes nothing to the race and the
session can only be resolved by the callback or the deadline; and any
manual win carries the trimmed non-empty code of an actual read. -/
theorem manual_reader_discipline :
    (∀ s c, manualSignal (ReadResult.line s) = some c →
      c = trimSpace s ∧ trimSpace s ≠ "") ∧
    (∀ s, trimSpace s = "" → manualSignal (ReadResult.line s) = none) ∧
    manualSignal ReadResult.readFailure = none ∧
    (∀ r rest, manualSignal r = none →
      resolve (Event.manualCompletes r :: rest) = resolve rest) ∧
    (∀ events c, resolve events = SelectOutcome.fromManual c →
      ∃ r, Event.manualCompletes r ∈ events ∧ manualSignal r = some c) := by
  refine ⟨fun s c h => ?_, fun s h => ?_, rfl, fun r rest h => ?_, ?_⟩
  · by_cases hs : trimSpace s = ""
    · simp [manualSignal, hs] at h
    · simp only [manualSignal, if_neg hs, Option.some.injEq] at h
      exact ⟨h.symm, hs⟩
  · simp [manualSignal, h]
  · simp [resolve, h]
  · intro events c h
    induction events with
    | nil => simp [resolve] at h
    | cons e rest ih =>
      cases e with
      | callbackArrives q =>
        by_cases hq : q = ""
        · simp [resolve, hq] at h
        · simp [resolve, hq] at h
      | manualCompletes r =>
        cases hr : manualSignal r with
        | some c₀ =>
          have : c₀ = c := by simpa [resolve, hr] using h
          exact ⟨r, by simp, by rw [hr, this]⟩
        | none =>
          obtain ⟨r', hmem, hsig⟩ := ih (by simpa [resolve, hr] using h)
          exact ⟨r', by simp [hmem], hsig⟩
      | deadline => simp [resolve] at h

/-- Witness for C10: a manual read that produces no signal leaves the
concrete session to be resolved by the remaining deadline. -/
theorem manual_reader_discipline_witness :
    resolve [Event.manualCompletes ReadResult.readFailure, Event.deadline] =
      resolve [Event.deadline] :=
  manual_reader_discipline.2.2.2.1 ReadResult.readFailure [Event.deadline]
    rfl

/-- C3 counterexample: the callback code and the manual code are two
distinct outcome types delivered on the same channel, not on dedicated
ones; and with the coordinator gone (zero receives) a second send into
that shared capacity-one channel blocks its producer. -/
theorem shared_code_channel_cex :
    outcomeChannel OutcomeType.manualCode =
      outcomeChannel OutcomeType.callbackCode ∧
    OutcomeType.manualCode ≠ OutcomeType.callbackCode ∧
    sendBlocks (chanCapacity ChanId.codeChan)
      (sendsTo ChanId.codeChan [OutcomeType.callbackCode]) 0 = true := by
  refine ⟨rfl, by decide, by decide⟩

/-- C3 (amended): the session uses two capacity-one channels, with the
callback code and the manual code sharing `codeChan` and the callback
error alone on `errChan`; a producer send into a channel no other
producer has filled never blocks, whatever the coordinator consumed, but
a second unconsumed send into the shared code channel does block. -/
theorem channel_discipline :
    chanCapacity ChanId.codeChan = 1 ∧
    chanCapacity ChanId.errChan = 1 ∧
    outcomeChannel OutcomeType.callbackCode = ChanId.codeChan ∧
    outcomeChannel OutcomeType.manualCode = ChanId.codeChan ∧
    outcomeChannel OutcomeType.callbackError = ChanId.errChan ∧
    (∀ receives : Nat, sendBlocks 1 0 receives = false) ∧
    sendBlocks 1 1 0 = true := by
  refine ⟨rfl, rfl, rfl, rfl, rfl, fun receives => ?_, by decide⟩
  simp only [sendBlocks, decide_eq_false_iff_not]
  omega

end Gcal
